import Mathlib

/-!
Verification development for the cluster resource lifecycle manager of the
calyptia CLI.  The Go sources are shallowly embedded: pure string
manipulation from `cmd/operator/install.go` is modelled over `List Char`
(Go strings are byte/char sequences and all relevant operations are
literal substring scans), and the Kubernetes client operations from
`k8s/client.go` are modelled as explicit state passing over a `Cluster`
record, with fallible calls returning `Except`/`Option`.
-/

namespace CalyptiaCLI

/-! ### Generic character-list machinery

Models of Go `strings` / `regexp` primitives used by the sources.
All definitions are executable and fuel-based scans reduce in the kernel.
-/

/-- Go regexp character class matched by the token in the source. -/
def isWS (c : Char) : Bool :=
  c == ' ' || c == '\t' || c == '\n' || c == '\x0c' || c == '\r'

/-- Is `c` a newline or carriage return (the characters excluded by the
character class at the end of the image regular expression)? -/
def isNL (c : Char) : Bool := c == '\n' || c == '\r'

/-- Boolean list-prefix test (model of the check Go performs when scanning
for a literal substring). -/
def isPreL : List Char → List Char → Bool
  | [], _ => true
  | _ :: _, [] => false
  | p :: ps, c :: cs => p == c && isPreL ps cs

/-- Strip a literal from the head of a list, returning the remainder. -/
def stripPreL : List Char → List Char → Option (List Char)
  | [], s => some s
  | _ :: _, [] => none
  | p :: ps, c :: cs => if p == c then stripPreL ps cs else none

/-- A matcher tries to recognise a token at the head of the input,
returning the consumed token and the rest of the input. -/
abbrev Matcher := List Char → Option (List Char × List Char)

/-- Matcher for a non-empty literal substring (Go `strings.Index` style). -/
def litMatch (pat : List Char) : Matcher := fun s =>
  if pat = [] then none
  else
    match stripPreL pat s with
    | some r => some (pat, r)
    | none => none

/-- Does the matcher fire at some position of `s`?
Model of Go `strings.Contains` / `regexp.FindString != ""`. -/
def scanHas (m : Matcher) : List Char → Bool
  | [] => false
  | c :: r => (m (c :: r)).isSome || scanHas m r

/-- Replace every leftmost non-overlapping token recognised by the matcher
with the literal text `repl`, scanning left to right.  This is Go
`strings.ReplaceAll` (which performs no `$`-expansion); the
`regexp.ReplaceAllString` call of `addImage` additionally expands the
replacement template per match and is modelled by `scanReplExpand` below.
`fuel` bounds the recursion and is always instantiated with at least the
input length. -/
def scanRepl (m : Matcher) (repl : List Char) : Nat → List Char → List Char
  | _, [] => []
  | 0, s => s
  | fuel + 1, c :: rest =>
    match m (c :: rest) with
    | some (_, after) => repl ++ scanRepl m repl fuel after
    | none => c :: scanRepl m repl fuel rest

/-- Split around every leftmost non-overlapping token recognised by the
matcher (Go `strings.Split` semantics), with an accumulator for the piece
currently being read. -/
def scanSplit (m : Matcher) : Nat → List Char → List Char → List (List Char)
  | _, [], acc => [acc.reverse]
  | 0, s, acc => [acc.reverse ++ s]
  | fuel + 1, c :: rest, acc =>
    match m (c :: rest) with
    | some (_, after) => acc.reverse :: scanSplit m fuel after []
    | none => scanSplit m fuel rest (c :: acc)

/-- Model of Go `strings.ReplaceAll s pat repl` (for the non-empty literal
patterns the sources use; an empty pattern is returned unchanged, a case no
caller hits). -/
def replaceAllL (pat repl s : List Char) : List Char :=
  if pat = [] then s else scanRepl (litMatch pat) repl (s.length + 1) s

/-- Model of Go `strings.Split s sep` for a non-empty separator (Go returns
`[s]` for an empty separator split only in the degenerate case; the sources
only split on `"---\n"` and `":"`). -/
def splitAllL (sep s : List Char) : List (List Char) :=
  if sep = [] then [s] else scanSplit (litMatch sep) (s.length + 1) s []

/-- Model of Go `strings.Join xs sep`. -/
def joinSepL (sep : List Char) : List (List Char) → List Char
  | [] => []
  | [x] => x
  | x :: y :: r => x ++ sep ++ joinSepL sep (y :: r)

/-- Model of Go `strings.Contains s pat`. -/
def containsSub (s pat : String) : Bool := scanHas (litMatch pat.data) s.data

/-! ### Model of `strconv.Atoi` success (install.go quotes namespaces that
parse as integers) -/

/-- Numeric value of a digit run, most significant first. -/
def digitsValGo (acc : Nat) : List Char → Nat
  | [] => acc
  | c :: r => digitsValGo (acc * 10 + (c.toNat - 48)) r

/-- Does `s` parse as a (64-bit) integer as `strconv.Atoi` accepts:
an optional sign, one or more decimal digits, value within `int64` range. -/
def atoiOk (s : List Char) : Bool :=
  match s with
  | [] => false
  | '+' :: r => !r.isEmpty && r.all Char.isDigit && digitsValGo 0 r ≤ 2 ^ 63 - 1
  | '-' :: r => !r.isEmpty && r.all Char.isDigit && digitsValGo 0 r ≤ 2 ^ 63
  | _ => s.all Char.isDigit && digitsValGo 0 s ≤ 2 ^ 63 - 1

/-! ### Model of `cmd/operator/install.go` manifest preparation -/

/-- The namespace placeholder token substituted by `injectNamespace`. -/
def nsTok : List Char := ("namespace: calyptia-core").data

/-- The name placeholder token substituted by `solveNamespaceCreation`. -/
def nameTok : List Char := ("name: calyptia-core").data

/-- The `---`-with-newline document separator used by the manifest split. -/
def sepTok : List Char := ("---\n").data

/-- `install.go` quotes the namespace when it parses as an integer, to keep
it a YAML string scalar (`fmt.Sprintf("\x22%s\x22", namespace)`). -/
def quoteIfInt (ns : List Char) : List Char :=
  if atoiOk ns then '"' :: (ns ++ ['"']) else ns

/-- Model of `injectNamespace` (install.go:241-246): replace every
occurrence of `namespace: calyptia-core` with the target namespace. -/
def injectNamespace (s ns : List Char) : List Char :=
  replaceAllL nsTok (("namespace: ").data ++ quoteIfInt ns) s

/-- Model of `solveNamespaceCreation` (install.go:216-225): when the
namespace is not to be created, drop the first `---\n`-separated document;
otherwise substitute the `name: calyptia-core` placeholder. -/
def solveNamespaceCreation (createNamespace : Bool) (fullFile ns : List Char) :
    List Char :=
  if !createNamespace then
    joinSepL sepTok ((splitAllL sepTok fullFile).drop 1)
  else
    replaceAllL nameTok (("name: ").data ++ quoteIfInt ns) fullFile

/-! The image pattern `image:\s*ghcr.io/calyptia/core-operator:[^\n\r]*`
from `addImage` (install.go:227-239).  The `.` after `ghcr` is a regex
wildcard; `\s*` and `[^\n\r]*` are greedy, and since the literal following
`\s*` starts with `g` (not a whitespace character) the Go leftmost-first
match of this pattern needs no backtracking: it is exactly the
deterministic scan below. -/

/-- Literal head of the image pattern. -/
def imTok : List Char := ("image:").data

/-- Literal before the regex wildcard character. -/
def ghcrPre : List Char := ("ghcr").data

/-- Literal after the regex wildcard character. -/
def ghcrSuf : List Char := ("io/calyptia/core-operator:").data

/-- Matcher for one occurrence of the image regular expression at the head
of the input: `image:` then greedy whitespace, then the repository literal
(with one wildcard character), then the greedy remainder of the line. -/
def imageMatch : Matcher := fun s =>
  match stripPreL imTok s with
  | none => none
  | some r1 =>
    let w := r1.takeWhile isWS
    let r2 := r1.dropWhile isWS
    match stripPreL ghcrPre r2 with
    | none => none
    | some r3 =>
      match r3 with
      | [] => none
      | c :: r4 =>
        match stripPreL ghcrSuf r4 with
        | none => none
        | some r5 =>
          let t := r5.takeWhile (fun d => !isNL d)
          let after := r5.dropWhile (fun d => !isNL d)
          some (imTok ++ w ++ ghcrPre ++ c :: (ghcrSuf ++ t), after)

/-- Does the image pattern occur anywhere in the manifest
(`reImagePattern.FindString(file) != ""`)? -/
def hasImagePat (s : List Char) : Bool := scanHas imageMatch s

/-- The replacement template `fmt.Sprintf("image: %s:%s", image, version)`
handed to `ReplaceAllString`. -/
def imageRepl (img v : List Char) : List Char :=
  ("image: ").data ++ img ++ ':' :: v

/-! Go `regexp.ReplaceAllString` does not insert the replacement template
literally: it runs `Regexp.expand` on it per match, interpreting `$`
references.  For the image pattern there are no capture groups and no
subexpression names, so `$0`/`${0}` (any all-digit name of value zero)
expands to the whole matched text, any other `$name`/`${name}` expands to
nothing, `$$` is a literal `$`, and a `$` followed by no well-formed name
is kept literally.  The functions below model that `expand` loop.
(`unicode.IsLetter`/`IsDigit` in the name scanner are modelled by the
ASCII classifiers; the difference only affects templates containing `$`,
which the theorems below exclude by hypothesis.) -/

/-- `strings.Cut(template, "$")`: split at the first dollar sign. -/
def cutDollar : List Char → Option (List Char × List Char)
  | [] => none
  | c :: r =>
    if c = '$' then some ([], r)
    else
      match cutDollar r with
      | none => none
      | some (b, a) => some (c :: b, a)

/-- Characters allowed in a `$name` reference (letters, digits,
underscore). -/
def isTemplNameChar (c : Char) : Bool := c.isAlpha || c.isDigit || c == '_'

/-- Model of `regexp.extract` applied to the text after a `$`: a leading
`name` or `{name}`, returning the name and the rest; `none` is the
malformed case (the `$` is then kept as raw text). -/
def extractTemplName (s : List Char) : Option (List Char × List Char) :=
  match s with
  | [] => none
  | '\x7b' :: r =>
    let name := r.takeWhile isTemplNameChar
    let rest := r.dropWhile isTemplNameChar
    if name = [] then none
    else
      match rest with
      | '\x7d' :: r2 => some (name, r2)
      | _ => none
  | _ =>
    let name := s.takeWhile isTemplNameChar
    let rest := s.dropWhile isTemplNameChar
    if name = [] then none else some (name, rest)

/-- What a `$name` reference contributes for this pattern: with the match
slice `[start, end]` of a group-free pattern, only the all-digit name of
value zero is in range and yields the matched text; every other name
(higher indexes, or a lookup among the subexpression names, all empty)
yields nothing. -/
def templNameValue (name matched : List Char) : List Char :=
  if name.all Char.isDigit then
    if digitsValGo 0 name = 0 then matched else []
  else []

/-- Model of the `Regexp.expand` loop over the replacement template for
one match:  copy text up to each `$`, treat `$$` as a literal `$`,
substitute well-formed references, and keep a malformed `$` as raw text.
`fuel` bounds the recursion (each iteration consumes at least the `$`)
and is always instantiated with at least the template length. -/
def expandGo : Nat → List Char → List Char → List Char
  | _, [], _ => []
  | 0, t, _ => t
  | fuel + 1, t, matched =>
    match cutDollar t with
    | none => t
    | some (before, after) =>
      before ++
        (match after with
        | '$' :: r => '$' :: expandGo fuel r matched
        | _ =>
          match extractTemplName after with
          | none => '$' :: expandGo fuel after matched
          | some (name, rest) =>
            templNameValue name matched ++ expandGo fuel rest matched)

/-- Replace every leftmost non-overlapping token recognised by the matcher
with the expansion of the template against that match
(`regexp.ReplaceAllString` semantics). -/
def scanReplExpand (m : Matcher) (templ : List Char) :
    Nat → List Char → List Char
  | _, [] => []
  | 0, s => s
  | fuel + 1, c :: rest =>
    match m (c :: rest) with
    | some (tok, after) =>
      expandGo (templ.length + 1) templ tok ++ scanReplExpand m templ fuel after
    | none => c :: scanReplExpand m templ fuel rest

/-- Model of `addImage` (install.go:227-239): with a non-empty version,
failing to find the image pattern is a hard error, otherwise every match is
replaced with the `$`-expansion of the template `image: <image>:<version>`
against that match. -/
def addImage (img v file : List Char) : Except String (List Char) :=
  if v = [] then .ok file
  else if hasImagePat file then
    .ok (scanReplExpand imageMatch (imageRepl img v) (file.length + 1) file)
  else .error ("could not find image in manifest")

/-- Model of the text transformation of `prepareInstallManifest`
(install.go:184-214): namespace-document handling, namespace substitution,
then image substitution.  (The temporary-file I/O that persists the result
is outside the model; the returned text is what the Go code writes.) -/
def prepareInstallManifestText (img v ns : List Char) (createNamespace : Bool)
    (base : List Char) : Except String (List Char) :=
  addImage img v (injectNamespace (solveNamespaceCreation createNamespace base ns) ns)

/-! ### Lemmas about the literal-scan machinery -/

theorem stripPreL_some_iff : ∀ (p s r : List Char), stripPreL p s = some r ↔ s = p ++ r := by
  intro p
  induction p with
  | nil =>
    intro s r
    simp [stripPreL, eq_comm]
  | cons a p ih =>
    intro s r
    cases s with
    | nil => simp [stripPreL]
    | cons c cs =>
      simp only [stripPreL, List.cons_append, List.cons.injEq]
      by_cases h : a = c
      · subst h
        simp [ih]
      · have hb : (a == c) = false := by simpa using h
        simp [hb]
        rintro he _
        exact h he.symm

theorem litMatch_eq_some {pat s tok r : List Char} (h : litMatch pat s = some (tok, r)) :
    pat ≠ [] ∧ tok = pat ∧ s = pat ++ r := by
  unfold litMatch at h
  by_cases hp : pat = []
  · simp [hp] at h
  · rw [if_neg hp] at h
    cases hs : stripPreL pat s with
    | none => rw [hs] at h; cases h
    | some r2 =>
      rw [hs] at h
      have h2 : pat = tok ∧ r2 = r := by
        have := h
        simp at this
        exact this
      obtain ⟨h3, h4⟩ := h2
      refine ⟨hp, h3.symm, ?_⟩
      rw [← h4]
      exact (stripPreL_some_iff pat s r2).mp hs

theorem scanRepl_litMatch_self :
    ∀ (fuel : Nat) (pat s : List Char), s.length ≤ fuel →
      scanRepl (litMatch pat) pat fuel s = s := by
  intro fuel
  induction fuel with
  | zero =>
    intro pat s h
    cases s with
    | nil => rfl
    | cons c cs => simp at h
  | succ n ih =>
    intro pat s h
    cases s with
    | nil => rfl
    | cons c cs =>
      simp only [scanRepl]
      cases hm : litMatch pat (c :: cs) with
      | none =>
        rw [ih pat cs (by simpa using Nat.le_of_succ_le_succ h)]
      | some pr =>
        obtain ⟨tok, r⟩ := pr
        obtain ⟨hne, _, hs⟩ := litMatch_eq_some hm
        have hlen : r.length ≤ n := by
          have h1 : (c :: cs).length = pat.length + r.length := by
            rw [hs, List.length_append]
          have h2 : 1 ≤ pat.length := by
            cases pat with
            | nil => exact absurd rfl hne
            | cons _ _ => simp
          omega
        show pat ++ scanRepl (litMatch pat) pat n r = c :: cs
        rw [ih pat r hlen]
        exact hs.symm

theorem replaceAllL_self (pat s : List Char) : replaceAllL pat pat s = s := by
  unfold replaceAllL
  by_cases hp : pat = []
  · rw [if_pos hp]
  · rw [if_neg hp]
    exact scanRepl_litMatch_self (s.length + 1) pat s (Nat.le_succ _)

/-! ### Claim C5 — idempotence of `injectNamespace` -/

/-- C5 counterexample: the claim asserts that `injectNamespace` applied
twice equals applied once only if the namespace shares no characters with
the placeholder, and names `n = "calyptia-core"` as a known
non-idempotence case.  At `n = "calyptia-core"` the replacement text equals
the placeholder, so the function is the identity and is idempotent, while
`n` obviously does share characters with the placeholder: the claimed
"only if" (and the claimed non-idempotence case) is false. -/
theorem injectNamespace_c5_counterexample :
    injectNamespace
        (injectNamespace (("namespace: calyptia-core\n").data) (("calyptia-core").data))
        (("calyptia-core").data)
      = injectNamespace (("namespace: calyptia-core\n").data) (("calyptia-core").data)
    ∧ ¬ (∀ c ∈ ("calyptia-core").data, c ∉ ("calyptia-core").data) := by
  constructor
  · decide
  · decide

/-- C5 (amended): for `n = "calyptia-core"` the replacement equals the
placeholder, so `injectNamespace` is the identity on every input — in
particular idempotent — and the genuine non-idempotence arises when the
replacement properly extends the placeholder, e.g. `n = "calyptia-corex"`,
where a second application rewrites the freshly injected text again. -/
theorem injectNamespace_idempotence_amended :
    (∀ s : List Char, injectNamespace s (("calyptia-core").data) = s)
    ∧ injectNamespace
        (injectNamespace (("namespace: calyptia-core").data) (("calyptia-corex").data))
        (("calyptia-corex").data)
      ≠ injectNamespace (("namespace: calyptia-core").data) (("calyptia-corex").data) := by
  constructor
  · intro s
    have hq : ("namespace: ").data ++ quoteIfInt (("calyptia-core").data) = nsTok := by
      decide
    unfold injectNamespace
    rw [hq]
    exact replaceAllL_self nsTok s
  · decide

/-! ### Claim C2 — `prepare` with `createNamespace = false` -/

/-- C2: on a base manifest that splits into a namespace document followed
by two further documents (e.g. RBAC then deployment), preparing with
`createNamespace = false` and no version drops the first document and
returns the remaining documents unchanged except that every occurrence of
`namespace: calyptia-core` is replaced with the target namespace (which is
quoted if and only if it parses as an integer; for a non-integer namespace
the replacement text is literally `namespace: <ns>`). -/
theorem prepare_no_create_namespace_spec
    (img ns d0 d1 d2 base : List Char)
    (hsplit : splitAllL sepTok base = [d0, d1, d2]) :
    prepareInstallManifestText img [] ns false base
      = .ok (replaceAllL nsTok (("namespace: ").data ++ quoteIfInt ns)
              (d1 ++ sepTok ++ d2))
    ∧ (atoiOk ns = false → ("namespace: ").data ++ quoteIfInt ns
        = ("namespace: ").data ++ ns) := by
  constructor
  · unfold prepareInstallManifestText
    have hsolve : solveNamespaceCreation false base ns = d1 ++ sepTok ++ d2 := by
      unfold solveNamespaceCreation
      rw [if_pos (show (!false) = true from rfl), hsplit]
      simp [joinSepL]
    rw [hsolve]
    unfold addImage
    rw [if_pos rfl]
    rfl
  · intro h
    unfold quoteIfInt
    rw [h]
    simp

set_option maxRecDepth 100000 in
/-- C2 witness: a concrete three-document manifest with the placeholder in
the second and third documents. -/
theorem prepare_no_create_namespace_witness :
    prepareInstallManifestText (("img").data) [] (("monitoring").data) false
        (("apiVersion: v1\nkind: Namespace\nmetadata:\n  name: calyptia-core\n---\nkind: Role\nnamespace: calyptia-core\n---\nkind: Deployment\nnamespace: calyptia-core\n").data)
      = .ok (replaceAllL nsTok (("namespace: ").data ++ quoteIfInt (("monitoring").data))
              ((("kind: Role\nnamespace: calyptia-core\n").data) ++ sepTok
                ++ (("kind: Deployment\nnamespace: calyptia-core\n").data)))
    ∧ (atoiOk (("monitoring").data) = false →
        ("namespace: ").data ++ quoteIfInt (("monitoring").data)
          = ("namespace: ").data ++ ("monitoring").data) :=
  prepare_no_create_namespace_spec (("img").data) (("monitoring").data)
    (("apiVersion: v1\nkind: Namespace\nmetadata:\n  name: calyptia-core\n").data)
    (("kind: Role\nnamespace: calyptia-core\n").data)
    (("kind: Deployment\nnamespace: calyptia-core\n").data)
    _ (by decide)

/-! ### Claim C1 — image substitution in `addImage`

`ImageTok` describes, structurally and independently of the scanner, the
strings matched by the regular expression
`image:\s*ghcr.io/calyptia/core-operator:[^\n\r]*`; `ImageReplaced repl`
relates a manifest to the text obtained by replacing every leftmost
non-overlapping occurrence with `repl` and copying everything else. -/

/-- `tok` is an instance of the image regular expression: the literal
`image:`, whitespace, the repository literal with one wildcard character,
the tag delimiter, then any characters other than newlines. -/
def ImageTok (tok : List Char) : Prop :=
  ∃ (w : List Char) (c : Char) (t : List Char),
    (∀ x ∈ w, isWS x = true) ∧ (∀ x ∈ t, isNL x = false) ∧
    tok = imTok ++ w ++ ghcrPre ++ c :: (ghcrSuf ++ t)

/-- Some instance of the image pattern begins at the head of `s`. -/
def StartsImageTok (s : List Char) : Prop :=
  ∃ tok rest, ImageTok tok ∧ s = tok ++ rest

/-- `ImageReplaced repl orig out`: `out` is `orig` with every leftmost
non-overlapping greedy instance of the image pattern replaced by `repl`
and every other character copied verbatim. -/
inductive ImageReplaced (repl : List Char) : List Char → List Char → Prop
  | done : ImageReplaced repl [] []
  | copy (c : Char) (s t : List Char) :
      ¬ StartsImageTok (c :: s) → ImageReplaced repl s t →
      ImageReplaced repl (c :: s) (c :: t)
  | swap (tok rest t : List Char) :
      ImageTok tok →
      (rest = [] ∨ ∃ d r2, rest = d :: r2 ∧ isNL d = true) →
      ImageReplaced repl rest t →
      ImageReplaced repl (tok ++ rest) (repl ++ t)

theorem takeWhile_app_of_all {p : Char → Bool} {w : List Char} (l : List Char)
    (h : ∀ x ∈ w, p x = true) : (w ++ l).takeWhile p = w ++ l.takeWhile p := by
  induction w with
  | nil => simp
  | cons a w ih =>
    simp only [List.cons_append, List.takeWhile_cons]
    rw [h a (by simp), ih (fun x hx => h x (by simp [hx]))]
    simp

theorem dropWhile_app_of_all {p : Char → Bool} {w : List Char} (l : List Char)
    (h : ∀ x ∈ w, p x = true) : (w ++ l).dropWhile p = l.dropWhile p := by
  induction w with
  | nil => simp
  | cons a w ih =>
    simp only [List.cons_append, List.dropWhile_cons]
    rw [h a (by simp)]
    exact ih (fun x hx => h x (by simp [hx]))

theorem mem_takeWhile_pred {p : Char → Bool} :
    ∀ {l : List Char} {x : Char}, x ∈ l.takeWhile p → p x = true := by
  intro l
  induction l with
  | nil => intro x h; simp [List.takeWhile] at h
  | cons a l ih =>
    intro x h
    rw [List.takeWhile_cons] at h
    by_cases ha : p a
    · rw [if_pos ha] at h
      rcases List.mem_cons.mp h with h1 | h2
      · rwa [h1]
      · exact ih h2
    · rw [if_neg ha] at h
      simp at h

theorem dropWhile_head_neg {p : Char → Bool} :
    ∀ {l r : List Char} {c : Char}, l.dropWhile p = c :: r → p c = false := by
  intro l
  induction l with
  | nil => intro r c h; simp [List.dropWhile] at h
  | cons a l ih =>
    intro r c h
    rw [List.dropWhile_cons] at h
    by_cases ha : p a
    · rw [if_pos ha] at h
      exact ih h
    · rw [if_neg ha] at h
      cases h
      simpa using ha

theorem imageMatch_sound {s tok after : List Char}
    (h : imageMatch s = some (tok, after)) :
    ImageTok tok ∧ s = tok ++ after
      ∧ (after = [] ∨ ∃ d r2, after = d :: r2 ∧ isNL d = true) := by
  unfold imageMatch at h
  cases h1 : stripPreL imTok s with
  | none => rw [h1] at h; cases h
  | some r1 =>
    rw [h1] at h
    dsimp only [] at h
    cases h2 : stripPreL ghcrPre (r1.dropWhile isWS) with
    | none => rw [h2] at h; cases h
    | some r3 =>
      rw [h2] at h
      cases r3 with
      | nil => cases h
      | cons c r4 =>
        dsimp only [] at h
        cases h3 : stripPreL ghcrSuf r4 with
        | none => rw [h3] at h; cases h
        | some r5 =>
          rw [h3] at h
          simp only [Option.some.injEq, Prod.mk.injEq] at h
          obtain ⟨htok, hafter⟩ := h
          have hs1 : s = imTok ++ r1 := (stripPreL_some_iff _ _ _).mp h1
          have hr2 : r1.dropWhile isWS = ghcrPre ++ (c :: r4) :=
            (stripPreL_some_iff _ _ _).mp h2
          have hr4 : r4 = ghcrSuf ++ r5 := (stripPreL_some_iff _ _ _).mp h3
          have hr5 : r5 = r5.takeWhile (fun d => !isNL d)
              ++ r5.dropWhile (fun d => !isNL d) :=
            (List.takeWhile_append_dropWhile _ _).symm
          refine ⟨⟨r1.takeWhile isWS, c, r5.takeWhile (fun d => !isNL d),
            ?_, ?_, ?_⟩, ?_, ?_⟩
          · intro x hx
            exact mem_takeWhile_pred hx
          · intro x hx
            simpa using mem_takeWhile_pred hx
          · exact htok.symm
          · rw [← htok, ← hafter, hs1]
            simp only [List.append_assoc, List.cons_append]
            rw [← hr5, ← hr4, ← hr2, List.takeWhile_append_dropWhile]
          · rw [← hafter]
            cases h5 : r5.dropWhile (fun d => !isNL d) with
            | nil => exact Or.inl rfl
            | cons d r6 =>
              refine Or.inr ⟨d, r6, rfl, ?_⟩
              have := dropWhile_head_neg h5
              simpa using this

theorem imageMatch_complete {s : List Char} (h : StartsImageTok s) :
    (imageMatch s).isSome = true := by
  obtain ⟨tok, rest, ⟨w, c, t, hw, _, htok⟩, hs⟩ := h
  have hs2 : s = imTok ++ (w ++ (ghcrPre ++ c :: (ghcrSuf ++ (t ++ rest)))) := by
    rw [hs, htok]; simp
  unfold imageMatch
  rw [(stripPreL_some_iff imTok s _).mpr hs2]
  simp only []
  have hdrop : (w ++ (ghcrPre ++ c :: (ghcrSuf ++ (t ++ rest)))).dropWhile isWS
      = ghcrPre ++ c :: (ghcrSuf ++ (t ++ rest)) := by
    rw [dropWhile_app_of_all _ hw]
    have : ghcrPre ++ c :: (ghcrSuf ++ (t ++ rest))
        = 'g' :: (("hcr").data ++ c :: (ghcrSuf ++ (t ++ rest))) := rfl
    rw [this, List.dropWhile_cons]
    simp [isWS]
  rw [hdrop]
  rw [(stripPreL_some_iff ghcrPre _ _).mpr rfl]
  simp only []
  rw [(stripPreL_some_iff ghcrSuf _ _).mpr rfl]
  simp

theorem imageTok_ne_nil {tok : List Char} (h : ImageTok tok) : tok ≠ [] := by
  obtain ⟨w, c, t, _, _, htok⟩ := h
  rw [htok]
  simp [imTok]

theorem scanRepl_imageReplaced (repl : List Char) :
    ∀ (fuel : Nat) (s : List Char), s.length ≤ fuel →
      ImageReplaced repl s (scanRepl imageMatch repl fuel s) := by
  intro fuel
  induction fuel with
  | zero =>
    intro s h
    cases s with
    | nil => exact .done
    | cons c cs => simp at h
  | succ n ih =>
    intro s h
    cases s with
    | nil => exact .done
    | cons c cs =>
      simp only [scanRepl]
      cases hm : imageMatch (c :: cs) with
      | none =>
        refine .copy c cs _ ?_ (ih cs (by simpa using Nat.le_of_succ_le_succ h))
        intro hst
        have := imageMatch_complete hst
        rw [hm] at this
        cases this
      | some pr =>
        obtain ⟨tok, after⟩ := pr
        obtain ⟨htok, hs, hafter⟩ := imageMatch_sound hm
        have hlen : after.length ≤ n := by
          have h1 : (c :: cs).length = tok.length + after.length := by
            rw [hs, List.length_append]
          have h2 : 1 ≤ tok.length := by
            cases htok2 : tok with
            | nil => exact absurd htok2 (imageTok_ne_nil htok)
            | cons _ _ => simp
          simp only [List.length_cons] at h h1
          omega
        show ImageReplaced repl (c :: cs) (repl ++ scanRepl imageMatch repl n after)
        rw [hs]
        exact .swap tok after _ htok hafter (ih after hlen)

theorem cutDollar_eq_none (t : List Char) (h : ∀ c ∈ t, c ≠ '$') :
    cutDollar t = none := by
  induction t with
  | nil => rfl
  | cons c r ih =>
    simp only [cutDollar]
    rw [if_neg (h c (by simp)), ih (fun x hx => h x (by simp [hx]))]

theorem expandGo_no_dollar (fuel : Nat) (t matched : List Char)
    (h : cutDollar t = none) : expandGo fuel t matched = t := by
  cases fuel with
  | zero => cases t <;> rfl
  | succ n =>
    cases t with
    | nil => rfl
    | cons c r =>
      simp only [expandGo, h]

theorem scanReplExpand_no_dollar (m : Matcher) (templ : List Char)
    (h : cutDollar templ = none) :
    ∀ (fuel : Nat) (s : List Char),
      scanReplExpand m templ fuel s = scanRepl m templ fuel s := by
  intro fuel
  induction fuel with
  | zero =>
    intro s
    cases s <;> rfl
  | succ n ih =>
    intro s
    cases s with
    | nil => rfl
    | cons c rest =>
      simp only [scanReplExpand, scanRepl]
      cases hm : m (c :: rest) with
      | none =>
        show c :: scanReplExpand m templ n rest = c :: scanRepl m templ n rest
        rw [ih rest]
      | some pr =>
        obtain ⟨tok, after⟩ := pr
        show expandGo (templ.length + 1) templ tok ++ scanReplExpand m templ n after
            = templ ++ scanRepl m templ n after
        rw [expandGo_no_dollar _ _ _ h, ih after]

/-- C1 (amended): with a non-empty version, `addImage` returns a hard error
exactly when the image pattern occurs nowhere in the manifest; when the
pattern occurs and the supplied image and version contain no `$` (so Go's
`$`-expansion of the replacement template is the identity), it succeeds
and the result is the manifest with every leftmost non-overlapping
occurrence of the pattern replaced by exactly `image: <image>:<version>`
and all other text copied verbatim.  (An occurrence of the placeholder
pattern may remain in the output only as an instance of the replacement
text itself this way — e.g. when the supplied image is the fixed
repository path, as with the default image, and in particular when the
version equals the original tag, in which case the original reference
survives unchanged.) -/
theorem addImage_amended (img v file : List Char) (hv : v ≠ [])
    (hdi : ∀ c ∈ img, c ≠ '$') (hdv : ∀ c ∈ v, c ≠ '$') :
    (addImage img v file = .error ("could not find image in manifest")
        ↔ hasImagePat file = false)
    ∧ (hasImagePat file = true →
        ∃ out, addImage img v file = .ok out
          ∧ ImageReplaced (imageRepl img v) file out) := by
  have hrepl : ∀ c ∈ imageRepl img v, c ≠ '$' := by
    intro c hc
    unfold imageRepl at hc
    rcases List.mem_append.mp hc with h1 | h2
    · rcases List.mem_append.mp h1 with h3 | h4
      · intro he
        subst he
        exact absurd h3 (by decide)
      · exact hdi c h4
    · rcases List.mem_cons.mp h2 with h5 | h6
      · intro he
        subst he
        exact absurd h5 (by decide)
      · exact hdv c h6
  have hcut : cutDollar (imageRepl img v) = none := cutDollar_eq_none _ hrepl
  unfold addImage
  rw [if_neg hv]
  by_cases hp : hasImagePat file = true
  · rw [if_pos hp, hp]
    refine ⟨?_, fun _ => ?_⟩
    · constructor
      · intro h
        exact Except.noConfusion h
      · intro h
        exact Bool.noConfusion h
    · refine ⟨_, rfl, ?_⟩
      rw [scanReplExpand_no_dollar imageMatch _ hcut]
      exact scanRepl_imageReplaced _ _ file (Nat.le_succ _)
  · have hp2 : hasImagePat file = false := by
      cases h : hasImagePat file
      · rfl
      · exact absurd h hp
    rw [if_neg hp, hp2]
    refine ⟨?_, ?_⟩
    · constructor
      · intro _
        rfl
      · intro _
        rfl
    · intro h
      exact Bool.noConfusion h

set_option maxRecDepth 400000 in
/-- C1 witness: a concrete manifest containing one pattern occurrence. -/
theorem addImage_amended_witness :
    ∃ out,
      addImage (("repo/img").data) (("v2").data)
          (("a: b\nimage: ghcr.io/calyptia/core-operator:v1\nc: d\n").data)
        = .ok out
      ∧ ImageReplaced (imageRepl (("repo/img").data) (("v2").data))
          (("a: b\nimage: ghcr.io/calyptia/core-operator:v1\nc: d\n").data) out :=
  (addImage_amended (("repo/img").data) (("v2").data)
    (("a: b\nimage: ghcr.io/calyptia/core-operator:v1\nc: d\n").data)
    (by decide) (by decide) (by decide)).2 (by decide)

set_option maxRecDepth 400000 in
/-- C1 counterexample: with the fixed repository path supplied as the image
(as the default install flow does) and the version equal to the original
tag, `addImage` succeeds and returns the manifest unchanged, so an
occurrence of the original placeholder image reference
(`image: ghcr.io/calyptia/core-operator:v1`) remains in the output even
though the pattern occurred and a non-empty version was supplied. -/
theorem addImage_c1_counterexample :
    ("v1").data ≠ []
    ∧ hasImagePat (("image: ghcr.io/calyptia/core-operator:v1\n").data) = true
    ∧ addImage (("ghcr.io/calyptia/core-operator").data) (("v1").data)
        (("image: ghcr.io/calyptia/core-operator:v1\n").data)
      = .ok (("image: ghcr.io/calyptia/core-operator:v1\n").data)
    ∧ containsSub ("image: ghcr.io/calyptia/core-operator:v1\n")
        ("image: ghcr.io/calyptia/core-operator:v1") = true :=
  ⟨by decide, by decide, by rfl, by decide⟩

/-! ### Model of `k8s/client.go`

Cluster state is a record of typed object lists; the client operations are
explicit state passing.  Labels and label selectors are modelled
structurally as key/value lists (the Go code passes selectors as `k=v`
strings which the API server parses; matching is key/value subset).
Transport-level API failures are outside the model: list/create/delete
calls succeed, name-targeted gets/deletes of absent objects yield the
NotFound error that the Go code branches on. -/

structure EnvVar where
  name : String
  value : String
  fieldRef : Option String := none
deriving DecidableEq

structure Container where
  name : String
  image : String
  env : List EnvVar := []
deriving DecidableEq

structure Deployment where
  name : String
  ns : String
  labels : List (String × String) := []
  selector : List (String × String) := []
  serviceAccountName : String := ""
  replicas : Nat := 1
  restartedAt : Option String := none
  containers : List Container := []
deriving DecidableEq

/-- A generic named cluster object (secret, service account, cluster role,
cluster role binding, config map, daemon set); cluster-scoped kinds leave
`ns` empty. -/
structure KObj where
  name : String
  ns : String := ""
  labels : List (String × String) := []
deriving DecidableEq

inductive PodPhase
  | pending
  | running
  | succeeded
  | failed
  | unknown
deriving DecidableEq

structure Pod where
  name : String
  ns : String
  labels : List (String × String) := []
  phase : PodPhase
deriving DecidableEq

structure Cluster where
  namespaces : List String := []
  deployments : List Deployment := []
  daemonSets : List KObj := []
  secrets : List KObj := []
  configMaps : List KObj := []
  serviceAccounts : List KObj := []
  clusterRoles : List KObj := []
  clusterRoleBindings : List KObj := []
  pods : List Pod := []
  pipelinesCRDInstalled : Bool := false
deriving DecidableEq

/-- The relevant fields of the Go `Client` struct. -/
structure KClient where
  ns : String
  projectToken : String := ""
  cloudBaseURL : String := ""
  labels : List (String × String) := []
deriving DecidableEq

abbrev Selector := List (String × String)

/-- Label-selector matching: every selector pair occurs among the labels. -/
def selMatch (sel : Selector) (ls : List (String × String)) : Bool :=
  sel.all (fun p => ls.contains p)

def joinStrSep (sep : String) : List String → String
  | [] => ""
  | [x] => x
  | x :: y :: r => x ++ sep ++ joinStrSep sep (y :: r)

/-- Rendering of a structured selector back to the `k=v,...` string that
the Go code carries (used only in error messages). -/
def selToString (sel : Selector) : String :=
  joinStrSep (",") (sel.map (fun p => p.1 ++ "=" ++ p.2))

def coreTLSVerifyEnvVar : String := "CORE_TLS_VERIFY"

def syncTLSVerifyEnvVar : String := "NO_TLS_VERIFY"

def coreSkipServiceCreationEnvVar : String := "CORE_INSTANCE_SKIP_SERVICE_CREATION"

def operatorDeploymentName : String := "calyptia-core-controller-manager"

def defaultResourceNamePre : String := "calyptia"

/-- Model of `FormatResourceName` (client.go:949-955). -/
def FormatResourceName (parts : List String) : String :=
  let s := joinStrSep ("-") parts
  if isPreL defaultResourceNamePre.data s.data then s
  else defaultResourceNamePre ++ "-" ++ s

/-! ### Claim C3 — `IsOperatorInstalled` (client.go:996-1078) -/

/-- The four well-known cluster-role names checked by the inspector. -/
def roleNames : List String :=
  ["calyptia-core-manager-role", "calyptia-core-metrics-reader",
   "calyptia-core-pod-role", "calyptia-core-proxy-role"]

/-- The two well-known cluster-role-binding names checked by the inspector. -/
def crbNames : List String :=
  ["calyptia-core-manager-rolebinding", "calyptia-core-proxy-rolebinding"]

/-- Message contributed by one deployment during the inspector scan. -/
def operatorPodMsg (d : Deployment) : List String :=
  if d.name = operatorDeploymentName then
    [("Operator pod: ") ++ d.ns ++ "/" ++ d.name]
  else []

/-- Messages contributed by one cluster role: the loop body is four
independent name checks. -/
def clusterRoleMsg (r : KObj) : List String :=
  (if r.name = ("calyptia-core-manager-role") then [("ClusterRole: ") ++ r.name] else [])
    ++ (if r.name = ("calyptia-core-metrics-reader") then [("ClusterRole: ") ++ r.name] else [])
    ++ (if r.name = ("calyptia-core-pod-role") then [("ClusterRole: ") ++ r.name] else [])
    ++ (if r.name = ("calyptia-core-proxy-role") then [("ClusterRole: ") ++ r.name] else [])

/-- Messages contributed by one cluster role binding. -/
def crbMsg (b : KObj) : List String :=
  (if b.name = ("calyptia-core-manager-rolebinding") then [("ClusterRoleBinding: ") ++ b.name] else [])
    ++ (if b.name = ("calyptia-core-proxy-rolebinding") then [("ClusterRoleBinding: ") ++ b.name] else [])

/-- Message contributed by one service account. -/
def saMsg (a : KObj) : List String :=
  if a.name = operatorDeploymentName then
    [("ServiceAccount: ") ++ a.ns ++ "/" ++ a.name]
  else []

/-- Model of `IsOperatorInstalled`: the accumulated multi-error is the
sequential concatenation of the per-section scans (pipelines custom
resource API, all deployments, cluster roles, cluster role bindings,
service accounts); the boolean is whether any error was accumulated, and
the `nil` Go error is the empty message list. -/
def IsOperatorInstalled (st : Cluster) : Bool × List String :=
  let errs :=
    (if st.pipelinesCRDInstalled then [("CustomResourceDefinition Pipeline installed")] else [])
      ++ st.deployments.flatMap operatorPodMsg
      ++ st.clusterRoles.flatMap clusterRoleMsg
      ++ st.clusterRoleBindings.flatMap crbMsg
      ++ st.serviceAccounts.flatMap saMsg
  (!errs.isEmpty, errs)

/-- Model of `OperatorIncompleteError.Error()`: the newline join of the
accumulated messages. -/
def operatorIncompleteMessage (errs : List String) : String :=
  joinStrSep ("\n") errs

/-- Specification-side residue predicate: some well-known operator object
is present. -/
def HasResidue (st : Cluster) : Prop :=
  st.pipelinesCRDInstalled = true
    ∨ (∃ d ∈ st.deployments, d.name = operatorDeploymentName)
    ∨ (∃ r ∈ st.clusterRoles, r.name ∈ roleNames)
    ∨ (∃ b ∈ st.clusterRoleBindings, b.name ∈ crbNames)
    ∨ (∃ a ∈ st.serviceAccounts, a.name = operatorDeploymentName)

theorem operatorPodMsg_ne_nil (d : Deployment) :
    operatorPodMsg d ≠ [] ↔ d.name = operatorDeploymentName := by
  unfold operatorPodMsg
  by_cases h : d.name = operatorDeploymentName <;> simp [h]

theorem clusterRoleMsg_ne_nil (r : KObj) :
    clusterRoleMsg r ≠ [] ↔ r.name ∈ roleNames := by
  unfold clusterRoleMsg roleNames
  by_cases h1 : r.name = ("calyptia-core-manager-role")
  · simp [h1]
  · by_cases h2 : r.name = ("calyptia-core-metrics-reader")
    · simp [h1, h2]
    · by_cases h3 : r.name = ("calyptia-core-pod-role")
      · simp [h1, h2, h3]
      · by_cases h4 : r.name = ("calyptia-core-proxy-role")
        · simp [h1, h2, h3, h4]
        · simp [h1, h2, h3, h4]

theorem crbMsg_ne_nil (b : KObj) : crbMsg b ≠ [] ↔ b.name ∈ crbNames := by
  unfold crbMsg crbNames
  by_cases h1 : b.name = ("calyptia-core-manager-rolebinding")
  · simp [h1]
  · by_cases h2 : b.name = ("calyptia-core-proxy-rolebinding")
    · simp [h1, h2]
    · simp [h1, h2]

theorem saMsg_ne_nil (a : KObj) : saMsg a ≠ [] ↔ a.name = operatorDeploymentName := by
  unfold saMsg
  by_cases h : a.name = operatorDeploymentName <;> simp [h]

theorem bind_ne_nil_iff {α β : Type} (f : α → List β) :
    ∀ l : List α, l.flatMap f ≠ [] ↔ ∃ x ∈ l, f x ≠ [] := by
  intro l
  induction l with
  | nil => simp
  | cons a l ih =>
    simp only [List.flatMap_cons, ne_eq, List.append_eq_nil]
    constructor
    · intro h
      by_cases ha : f a = []
      · rcases ih.mp (fun hl => h ⟨ha, hl⟩) with ⟨x, hx, hfx⟩
        exact ⟨x, List.mem_cons_of_mem a hx, hfx⟩
      · exact ⟨a, List.mem_cons_self a l, ha⟩
    · rintro ⟨x, hx, hfx⟩ ⟨ha, hl⟩
      rcases List.mem_cons.mp hx with h1 | h2
      · exact hfx (h1 ▸ ha)
      · exact (ih.mpr ⟨x, h2, hfx⟩) hl

/-- C3: the inspector returns `(false, nil)` exactly on clusters with no
well-known operator residue; when residue exists it returns `true`
together with a non-empty aggregated error that contains one message for
every residue object found. -/
theorem isOperatorInstalled_spec (st : Cluster) :
    ((IsOperatorInstalled st).1 = true ↔ HasResidue st)
    ∧ ((IsOperatorInstalled st).1 = false → IsOperatorInstalled st = (false, []))
    ∧ ((IsOperatorInstalled st).1 = true → (IsOperatorInstalled st).2 ≠ [])
    ∧ (st.pipelinesCRDInstalled = true →
        ("CustomResourceDefinition Pipeline installed") ∈ (IsOperatorInstalled st).2)
    ∧ (∀ d ∈ st.deployments, d.name = operatorDeploymentName →
        (("Operator pod: ") ++ d.ns ++ "/" ++ d.name) ∈ (IsOperatorInstalled st).2)
    ∧ (∀ r ∈ st.clusterRoles, r.name ∈ roleNames →
        (("ClusterRole: ") ++ r.name) ∈ (IsOperatorInstalled st).2)
    ∧ (∀ b ∈ st.clusterRoleBindings, b.name ∈ crbNames →
        (("ClusterRoleBinding: ") ++ b.name) ∈ (IsOperatorInstalled st).2)
    ∧ (∀ a ∈ st.serviceAccounts, a.name = operatorDeploymentName →
        (("ServiceAccount: ") ++ a.ns ++ "/" ++ a.name) ∈ (IsOperatorInstalled st).2) := by
  have hfst : (IsOperatorInstalled st).1 = !(IsOperatorInstalled st).2.isEmpty := rfl
  have hne : ((IsOperatorInstalled st).2 ≠ []) ↔ HasResidue st := by
    show ((if st.pipelinesCRDInstalled then _ else []) ++ _ ++ _ ++ _ ++ _ ≠ []) ↔ _
    unfold HasResidue
    simp only [ne_eq, List.append_eq_nil]
    constructor
    · intro h
      by_cases hp : st.pipelinesCRDInstalled
      · exact Or.inl hp
      · by_cases hd : st.deployments.flatMap operatorPodMsg = []
        · by_cases hr : st.clusterRoles.flatMap clusterRoleMsg = []
          · by_cases hb : st.clusterRoleBindings.flatMap crbMsg = []
            · have hsa : st.serviceAccounts.flatMap saMsg ≠ [] := by
                intro hsa
                exact h ⟨⟨⟨⟨by simp [hp], hd⟩, hr⟩, hb⟩, hsa⟩
              rcases (bind_ne_nil_iff _ _).mp hsa with ⟨a, ha, hfa⟩
              exact Or.inr (Or.inr (Or.inr (Or.inr ⟨a, ha, (saMsg_ne_nil a).mp hfa⟩)))
            · rcases (bind_ne_nil_iff _ _).mp hb with ⟨b, hbm, hfb⟩
              exact Or.inr (Or.inr (Or.inr (Or.inl ⟨b, hbm, (crbMsg_ne_nil b).mp hfb⟩)))
          · rcases (bind_ne_nil_iff _ _).mp hr with ⟨r, hrm, hfr⟩
            exact Or.inr (Or.inr (Or.inl ⟨r, hrm, (clusterRoleMsg_ne_nil r).mp hfr⟩))
        · rcases (bind_ne_nil_iff _ _).mp hd with ⟨d, hdm, hfd⟩
          exact Or.inr (Or.inl ⟨d, hdm, (operatorPodMsg_ne_nil d).mp hfd⟩)
    · intro h hall
      obtain ⟨⟨⟨⟨h0, hd⟩, hr⟩, hb⟩, hsa⟩ := hall
      rcases h with hp | ⟨d, hdm, hdn⟩ | ⟨r, hrm, hrn⟩ | ⟨b, hbm, hbn⟩ | ⟨a, ham, han⟩
      · rw [hp] at h0
        simp at h0
      · exact (bind_ne_nil_iff _ _).mpr ⟨d, hdm, (operatorPodMsg_ne_nil d).mpr hdn⟩ hd
      · exact (bind_ne_nil_iff _ _).mpr ⟨r, hrm, (clusterRoleMsg_ne_nil r).mpr hrn⟩ hr
      · exact (bind_ne_nil_iff _ _).mpr ⟨b, hbm, (crbMsg_ne_nil b).mpr hbn⟩ hb
      · exact (bind_ne_nil_iff _ _).mpr ⟨a, ham, (saMsg_ne_nil a).mpr han⟩ hsa
  have hbne : ∀ l : List String, ((!l.isEmpty) = true) ↔ l ≠ [] := by
    intro l
    cases l <;> simp [List.isEmpty]
  have hbool : ((IsOperatorInstalled st).1 = true) ↔ ((IsOperatorInstalled st).2 ≠ []) := by
    rw [hfst]
    exact hbne _
  refine ⟨hbool.trans hne, ?_, ?_, ?_, ?_, ?_, ?_, ?_⟩
  · intro h
    have h2 : (IsOperatorInstalled st).2 = [] := by
      by_contra hc
      rw [hbool.mpr hc] at h
      cases h
    have : IsOperatorInstalled st = ((IsOperatorInstalled st).1, (IsOperatorInstalled st).2) := rfl
    rw [this, h, h2]
  · intro h
    exact hbool.mp h
  · intro h
    show _ ∈ (if st.pipelinesCRDInstalled then _ else []) ++ _ ++ _ ++ _ ++ _
    rw [h]
    simp
  · intro d hd hn
    show _ ∈ (if st.pipelinesCRDInstalled then _ else []) ++ _ ++ _ ++ _ ++ _
    have : (("Operator pod: ") ++ d.ns ++ "/" ++ d.name) ∈ st.deployments.flatMap operatorPodMsg :=
      List.mem_flatMap.mpr ⟨d, hd, by simp [operatorPodMsg, hn]⟩
    simp only [List.mem_append]
    exact Or.inl (Or.inl (Or.inl (Or.inr this)))
  · intro r hr hn
    show _ ∈ (if st.pipelinesCRDInstalled then _ else []) ++ _ ++ _ ++ _ ++ _
    have : (("ClusterRole: ") ++ r.name) ∈ st.clusterRoles.flatMap clusterRoleMsg := by
      refine List.mem_flatMap.mpr ⟨r, hr, ?_⟩
      unfold roleNames at hn
      unfold clusterRoleMsg
      simp only [List.mem_cons, List.not_mem_nil, or_false] at hn
      rcases hn with h1 | h1 | h1 | h1 <;> simp [h1]
    simp only [List.mem_append]
    exact Or.inl (Or.inl (Or.inr this))
  · intro b hb hn
    show _ ∈ (if st.pipelinesCRDInstalled then _ else []) ++ _ ++ _ ++ _ ++ _
    have : (("ClusterRoleBinding: ") ++ b.name) ∈ st.clusterRoleBindings.flatMap crbMsg := by
      refine List.mem_flatMap.mpr ⟨b, hb, ?_⟩
      unfold crbNames at hn
      unfold crbMsg
      simp only [List.mem_cons, List.not_mem_nil, or_false] at hn
      rcases hn with h1 | h1 <;> simp [h1]
    simp only [List.mem_append]
    exact Or.inl (Or.inr this)
  · intro a ha hn
    show _ ∈ (if st.pipelinesCRDInstalled then _ else []) ++ _ ++ _ ++ _ ++ _
    have : (("ServiceAccount: ") ++ a.ns ++ "/" ++ a.name) ∈ st.serviceAccounts.flatMap saMsg :=
      List.mem_flatMap.mpr ⟨a, ha, by simp [saMsg, hn]⟩
    simp only [List.mem_append]
    exact Or.inr this

/-- C3 witness: a cluster with one leftover cluster role yields `true` and
a singleton aggregate; the empty cluster yields `(false, nil)`. -/
theorem isOperatorInstalled_witness :
    (IsOperatorInstalled { clusterRoles := [{ name := ("calyptia-core-pod-role") }] }).1 = true
    ∧ IsOperatorInstalled {} = (false, []) :=
  ⟨(isOperatorInstalled_spec _).1.mpr
      (Or.inr (Or.inr (Or.inl ⟨{ name := ("calyptia-core-pod-role") }, by simp, by simp [roleNames]⟩))),
    ((isOperatorInstalled_spec {}).2.1 (by rfl))⟩

/-! ### Claim C4 — idempotent deletes (client.go:368-436, 884-943) -/

/-- Error outcomes of a single API call that the Go code branches on. -/
inductive ApiErr
  | notFound
  | other (msg : String)
deriving DecidableEq

/-- The Go wrappers turn a NotFound outcome into success
(`if apiErrors.IsNotFound(err) { return nil }`). -/
def ignoreNotFound : Option ApiErr → Option ApiErr
  | some .notFound => none
  | e => e

/-- `DeleteCollection` with a label selector removes every matching object
and succeeds even when nothing matches (Kubernetes semantics). -/
def deleteCollectionKObj (objs : List KObj) (label : Selector) (ns : String) :
    List KObj × Option ApiErr :=
  (objs.filter (fun o => !(o.ns == ns && selMatch label o.labels)), none)

/-- Cluster-scoped `DeleteCollection` by label. -/
def deleteCollectionClusterKObj (objs : List KObj) (label : Selector) :
    List KObj × Option ApiErr :=
  (objs.filter (fun o => !(selMatch label o.labels)), none)

/-- Model of `DeleteDeploymentByLabel` (client.go:368-377). -/
def DeleteDeploymentByLabel (st : Cluster) (label : Selector) (ns : String) :
    Cluster × Option ApiErr :=
  let st2 := {st with deployments :=
    st.deployments.filter (fun d => !(d.ns == ns && selMatch label d.labels))}
  (st2, ignoreNotFound none)

/-- Model of `DeleteDaemonSetByLabel` (client.go:379-388). -/
def DeleteDaemonSetByLabel (st : Cluster) (label : Selector) (ns : String) :
    Cluster × Option ApiErr :=
  let (objs, e) := deleteCollectionKObj st.daemonSets label ns
  ({st with daemonSets := objs}, ignoreNotFound e)

/-- Model of `DeleteClusterRoleByLabel` (client.go:390-396). -/
def DeleteClusterRoleByLabel (st : Cluster) (label : Selector) :
    Cluster × Option ApiErr :=
  let (objs, e) := deleteCollectionClusterKObj st.clusterRoles label
  ({st with clusterRoles := objs}, ignoreNotFound e)

/-- Model of `DeleteServiceAccountByLabel` (client.go:398-404). -/
def DeleteServiceAccountByLabel (st : Cluster) (label : Selector) (ns : String) :
    Cluster × Option ApiErr :=
  let (objs, e) := deleteCollectionKObj st.serviceAccounts label ns
  ({st with serviceAccounts := objs}, ignoreNotFound e)

/-- Model of `DeleteRoleBindingByLabel` (client.go:406-412). -/
def DeleteRoleBindingByLabel (st : Cluster) (label : Selector) :
    Cluster × Option ApiErr :=
  let (objs, e) := deleteCollectionClusterKObj st.clusterRoleBindings label
  ({st with clusterRoleBindings := objs}, ignoreNotFound e)

/-- Model of `DeleteSecretByLabel` (client.go:422-428). -/
def DeleteSecretByLabel (st : Cluster) (label : Selector) (ns : String) :
    Cluster × Option ApiErr :=
  let (objs, e) := deleteCollectionKObj st.secrets label ns
  ({st with secrets := objs}, ignoreNotFound e)

/-- Model of `DeleteConfigMapsByLabel` (client.go:430-436). -/
def DeleteConfigMapsByLabel (st : Cluster) (label : Selector) (ns : String) :
    Cluster × Option ApiErr :=
  let (objs, e) := deleteCollectionKObj st.configMaps label ns
  ({st with configMaps := objs}, ignoreNotFound e)

/-- Name-targeted delete of a deployment: NotFound when absent. -/
def deleteDeploymentNamed (st : Cluster) (ns dname : String) :
    Cluster × Option ApiErr :=
  if st.deployments.any (fun d => d.ns == ns && d.name == dname) then
    ({st with deployments :=
        st.deployments.filter (fun d => !(d.ns == ns && d.name == dname))}, none)
  else (st, some .notFound)

/-- Name-targeted delete of a namespaced generic object. -/
def deleteKObjNamed (objs : List KObj) (ns oname : String) :
    List KObj × Option ApiErr :=
  if objs.any (fun o => o.ns == ns && o.name == oname) then
    (objs.filter (fun o => !(o.ns == ns && o.name == oname)), none)
  else (objs, some .notFound)

/-- Name-targeted delete of a cluster-scoped generic object. -/
def deleteClusterKObjNamed (objs : List KObj) (oname : String) :
    List KObj × Option ApiErr :=
  if objs.any (fun o => o.name == oname) then
    (objs.filter (fun o => !(o.name == oname)), none)
  else (objs, some .notFound)

/-- The deterministic resource-name set of one core instance
(client.go:885-893). -/
structure CoreNames where
  secret : String
  serviceAccount : String
  clusterRole : String
  clusterRoleBinding : String
  deployment : String
deriving DecidableEq

def mkCoreNames (name env : String) : CoreNames :=
  { secret := FormatResourceName [name, env, ("secret")]
    serviceAccount := FormatResourceName [name, env, ("service-account")]
    clusterRole := FormatResourceName [name, env, ("cluster-role")]
    clusterRoleBinding := FormatResourceName [name, env, ("cluster-role-binding")]
    deployment := FormatResourceName [name, env, ("sync")] }

/-- One namespace iteration of `DeleteCoreInstance` (client.go:899-941):
five name-targeted deletes in order, each continuing on NotFound and
aborting on any other error. -/
def deleteCoreInstanceNS (st : Cluster) (core : CoreNames) (nsName : String) :
    Cluster × Option ApiErr :=
  let (st1, e1) := deleteDeploymentNamed st nsName core.deployment
  match ignoreNotFound e1 with
  | some e => (st1, some e)
  | none =>
    let (secrets2, e2) := deleteKObjNamed st1.secrets nsName core.secret
    let st2 := {st1 with secrets := secrets2}
    match ignoreNotFound e2 with
    | some e => (st2, some e)
    | none =>
      let (roles3, e3) := deleteClusterKObjNamed st2.clusterRoles core.clusterRole
      let st3 := {st2 with clusterRoles := roles3}
      match ignoreNotFound e3 with
      | some e => (st3, some e)
      | none =>
        let (crbs4, e4) := deleteClusterKObjNamed st3.clusterRoleBindings core.clusterRoleBinding
        let st4 := {st3 with clusterRoleBindings := crbs4}
        match ignoreNotFound e4 with
        | some e => (st4, some e)
        | none =>
          let (sas5, e5) := deleteKObjNamed st4.serviceAccounts nsName core.serviceAccount
          let st5 := {st4 with serviceAccounts := sas5}
          match ignoreNotFound e5 with
          | some e => (st5, some e)
          | none => (st5, none)

def dciGo (core : CoreNames) : Cluster → List String → Cluster × Option ApiErr
  | st, [] => (st, none)
  | st, ns :: rest =>
    match deleteCoreInstanceNS st core ns with
    | (st2, none) => dciGo core st2 rest
    | (st2, some e) => (st2, some e)

/-- Model of `DeleteCoreInstance` (client.go:884-943).  The `shouldWait`
poll re-reads the deployment until the Get fails; after the deletes above
the deployment is absent, so the poll finishes immediately and does not
change the result — it is therefore not modelled further. -/
def DeleteCoreInstance (st : Cluster) (name env : String) (shouldWait : Bool) :
    Cluster × Option ApiErr :=
  dciGo (mkCoreNames name env) st st.namespaces

theorem deleteCoreInstanceNS_absent (st : Cluster) (core : CoreNames) (ns : String)
    (hd : ∀ d ∈ st.deployments, d.name ≠ core.deployment)
    (hs : ∀ o ∈ st.secrets, o.name ≠ core.secret)
    (hr : ∀ o ∈ st.clusterRoles, o.name ≠ core.clusterRole)
    (hb : ∀ o ∈ st.clusterRoleBindings, o.name ≠ core.clusterRoleBinding)
    (ha : ∀ o ∈ st.serviceAccounts, o.name ≠ core.serviceAccount) :
    deleteCoreInstanceNS st core ns = (st, none) := by
  have h1 : st.deployments.any (fun d => d.ns == ns && d.name == core.deployment) = false := by
    rw [List.any_eq_false]
    intro d hdm
    simp only [Bool.and_eq_true, beq_iff_eq, not_and]
    intro _ hn
    exact hd d hdm hn
  have h2 : st.secrets.any (fun o => o.ns == ns && o.name == core.secret) = false := by
    rw [List.any_eq_false]
    intro o hom
    simp only [Bool.and_eq_true, beq_iff_eq, not_and]
    intro _ hn
    exact hs o hom hn
  have h3 : st.clusterRoles.any (fun o => o.name == core.clusterRole) = false := by
    rw [List.any_eq_false]
    intro o hom
    simp only [beq_iff_eq]
    exact hr o hom
  have h4 : st.clusterRoleBindings.any (fun o => o.name == core.clusterRoleBinding) = false := by
    rw [List.any_eq_false]
    intro o hom
    simp only [beq_iff_eq]
    exact hb o hom
  have h5 : st.serviceAccounts.any (fun o => o.ns == ns && o.name == core.serviceAccount) = false := by
    rw [List.any_eq_false]
    intro o hom
    simp only [Bool.and_eq_true, beq_iff_eq, not_and]
    intro _ hn
    exact ha o hom hn
  simp only [deleteCoreInstanceNS, deleteDeploymentNamed, deleteKObjNamed,
    deleteClusterKObjNamed, h1, h2, h3, h4, h5, Bool.false_eq_true, if_false,
    ignoreNotFound]

/-- C4: every delete-by-label operation reports success (Kubernetes
collection deletes succeed on zero matches and the wrapper additionally
maps NotFound to success), and the name-targeted delete of an instance's
resource set reports success and leaves the cluster unchanged when none of
the five derived names exists, because each NotFound is treated as
success. -/
theorem delete_not_found_is_success (st : Cluster) (label : Selector)
    (ns name env : String) (shouldWait : Bool)
    (hd : ∀ d ∈ st.deployments, d.name ≠ (mkCoreNames name env).deployment)
    (hs : ∀ o ∈ st.secrets, o.name ≠ (mkCoreNames name env).secret)
    (hr : ∀ o ∈ st.clusterRoles, o.name ≠ (mkCoreNames name env).clusterRole)
    (hb : ∀ o ∈ st.clusterRoleBindings, o.name ≠ (mkCoreNames name env).clusterRoleBinding)
    (ha : ∀ o ∈ st.serviceAccounts, o.name ≠ (mkCoreNames name env).serviceAccount) :
    (DeleteDeploymentByLabel st label ns).2 = none
    ∧ (DeleteDaemonSetByLabel st label ns).2 = none
    ∧ (DeleteClusterRoleByLabel st label).2 = none
    ∧ (DeleteServiceAccountByLabel st label ns).2 = none
    ∧ (DeleteRoleBindingByLabel st label).2 = none
    ∧ (DeleteSecretByLabel st label ns).2 = none
    ∧ (DeleteConfigMapsByLabel st label ns).2 = none
    ∧ DeleteCoreInstance st name env shouldWait = (st, none) := by
  refine ⟨rfl, rfl, rfl, rfl, rfl, rfl, rfl, ?_⟩
  unfold DeleteCoreInstance
  generalize st.namespaces = l
  induction l with
  | nil => rfl
  | cons n rest ih =>
    show dciGo _ st (n :: rest) = (st, none)
    unfold dciGo
    rw [deleteCoreInstanceNS_absent st _ n hd hs hr hb ha]
    exact ih

/-- C4 witness: a cluster holding only unrelated objects. -/
theorem delete_not_found_is_success_witness :
    (DeleteDeploymentByLabel
        { namespaces := [("default")],
          deployments := [{ name := ("web"), ns := ("default") }] }
        [(("app"), ("x"))] ("default")).2 = none
    ∧ DeleteCoreInstance
        { namespaces := [("default")],
          deployments := [{ name := ("web"), ns := ("default") }] }
        ("myinst") ("prod") false
      = ({ namespaces := [("default")],
           deployments := [{ name := ("web"), ns := ("default") }] }, none) :=
  ⟨(delete_not_found_is_success
      { namespaces := [("default")], deployments := [{ name := ("web"), ns := ("default") }] }
      [(("app"), ("x"))] ("default") ("myinst") ("prod") false
      (by decide) (by decide) (by decide) (by decide) (by decide)).1,
   (delete_not_found_is_success
      { namespaces := [("default")], deployments := [{ name := ("web"), ns := ("default") }] }
      [(("app"), ("x"))] ("default") ("myinst") ("prod") false
      (by decide) (by decide) (by decide) (by decide) (by decide)).2.2.2.2.2.2.2⟩

/-! ### Claim C6 — `CheckOperatorVersion` (client.go:957-968) -/

/-- Model of `SearchManagerAcrossAllNamespaces` (client.go:970-989):
iterate the namespaces in order, Get the fixed manager deployment name in
each, first hit wins; exhaustion is the named not-found error. -/
def searchMgrGo (st : Cluster) : List String → Except String Deployment
  | [] => .error ("could not find core operator across all namespaces")
  | ns :: rest =>
    match st.deployments.find? (fun d => d.ns == ns && d.name == operatorDeploymentName) with
    | some d => .ok d
    | none => searchMgrGo st rest

def SearchManagerAcrossAllNamespaces (st : Cluster) : Except String Deployment :=
  searchMgrGo st st.namespaces

/-- Model of `CheckOperatorVersion` (client.go:957-968).  The Go code
indexes `Containers[0]` and `strings.Split(managerImage, ":")[1]` without
bounds checks; `none` models the runtime panic (index out of range) those
indexes raise, while `some e` models a returned value. -/
def CheckOperatorVersion (st : Cluster) : Option (Except String String) :=
  match SearchManagerAcrossAllNamespaces st with
  | .error e => some (.error e)
  | .ok mgr =>
    match mgr.containers with
    | [] => none
    | c :: _ =>
      match (splitAllL [':'] c.image.data).get? 1 with
      | none => none
      | some v =>
        if v = [] then
          some (.error (("could not parse version from manager image: ") ++ c.image))
        else some (.ok (String.mk v))

/-- A cluster whose manager deployment's primary container image carries no
tag delimiter. -/
def c6Cluster : Cluster :=
  { namespaces := [("default")]
    deployments := [{ name := operatorDeploymentName, ns := ("default"),
                      containers := [{ name := ("manager"),
                                       image := ("ghcr.io/calyptia/core-operator") }] }] }

/-- C6: the manager deployment is found, its image splits on `:` into a
single piece, and `CheckOperatorVersion` crashes (index out of range on
`strings.Split(managerImage, ":")[1]`) instead of returning an error
value; a trailing-colon image by contrast does reach the error return. -/
theorem checkOperatorVersion_c6_bug :
    (SearchManagerAcrossAllNamespaces c6Cluster).isOk = true
    ∧ (splitAllL [':'] (("ghcr.io/calyptia/core-operator").data)).length = 1
    ∧ CheckOperatorVersion c6Cluster = none
    ∧ CheckOperatorVersion
        { c6Cluster with deployments :=
            [{ name := operatorDeploymentName, ns := ("default"),
               containers := [{ name := ("manager"),
                                image := ("ghcr.io/calyptia/core-operator:") }] }] }
      = some (.error (("could not parse version from manager image: ")
          ++ ("ghcr.io/calyptia/core-operator:"))) :=
  ⟨by rfl, by rfl, by rfl, by rfl⟩

/-! ### Readiness (client.go:802-861) -/

/-- `Get` of a deployment by namespace and name. -/
def findDeployment (st : Cluster) (ns dname : String) : Option Deployment :=
  st.deployments.find? (fun d => d.ns == ns && d.name == dname)

/-- The pods selected by a deployment's label selector in a namespace. -/
def podsForSelector (st : Cluster) (ns : String) (sel : Selector) : List Pod :=
  st.pods.filter (fun p => p.ns == ns && selMatch sel p.labels)

/-- The readiness loop of `isDeploymentReady` (client.go:852-859): the
`running` flag is reassigned per pod and the loop breaks on the first
non-running pod; an empty pod list leaves the flag at its `false` zero
value. -/
def runLoop : List Pod → Bool → Bool
  | [], acc => acc
  | p :: rest, _ => if p.phase == PodPhase.running then runLoop rest true else false

/-- One poll of `isDeploymentReady` (client.go:840-861): a failing Get or
List aborts the poll with an error; otherwise report whether the loop saw
only running pods. -/
def isDeploymentReady (st : Cluster) (ns dname : String) : Except String Bool :=
  match findDeployment st ns dname with
  | none => .error (("deployments.apps not found: ") ++ dname)
  | some d => .ok (runLoop (podsForSelector st ns d.selector) false)

/-- Model of `WaitReady` (client.go:802-838) over a trace of cluster
snapshots, one per poll tick; exhausting the trace is the poll timeout.
(In the verbose Go path the timeout is optionally enriched with per-pod
diagnostics, but it is still an error, never nil.) -/
def WaitReady : List Cluster → String → String → Except String Unit
  | [], _, _ => .error ("timed out waiting for the condition")
  | st :: rest, ns, dname =>
    match isDeploymentReady st ns dname with
    | .error e => .error e
    | .ok true => .ok ()
    | .ok false => WaitReady rest ns dname

/-! ### Claims C7/C8 — deployment updates by label (client.go:442-580) -/

/-- Model of `FindDeploymentByLabel` (client.go:590-592): list the
deployments of the client's namespace matching the selector. -/
def FindDeploymentByLabel (cl : KClient) (st : Cluster) (label : Selector) :
    List Deployment :=
  st.deployments.filter (fun d => d.ns == cl.ns && selMatch label d.labels)

/-- `Update` of a deployment object: replace the object with the same
namespace and name. -/
def putDeployment (st : Cluster) (ns : String) (d2 : Deployment) : Cluster :=
  {st with deployments :=
    st.deployments.map (fun d => if d.ns == ns && d.name == d2.name then d2 else d)}

/-- Model of `rolloutDeployment` (client.go:525-530): patch the
`restartedAt` pod-template annotation with the current timestamp. -/
def patchRestartedAt (st : Cluster) (ns dname now : String) : Cluster :=
  {st with deployments :=
    st.deployments.map (fun d =>
      if d.ns == ns && d.name == dname then {d with restartedAt := some now} else d)}

/-- The inline environment-variable upsert of `UpdateDeploymentByLabel`
(client.go:457-476): every variable named `CORE_TLS_VERIFY` or
`NO_TLS_VERIFY` has its value set; if none was found, `NO_TLS_VERIFY` is
appended. -/
def updMainEnvVars (envs : List EnvVar) (tls : String) : List EnvVar :=
  let found := envs.any (fun e =>
    e.name == coreTLSVerifyEnvVar || e.name == syncTLSVerifyEnvVar)
  let envs2 := envs.map (fun e =>
    if e.name == coreTLSVerifyEnvVar || e.name == syncTLSVerifyEnvVar then
      {e with value := tls}
    else e)
  if found then envs2 else envs2 ++ [{ name := syncTLSVerifyEnvVar, value := tls }]

/-- Model of `UpdateDeploymentByLabel` (client.go:442-484). -/
def UpdateDeploymentByLabel (cl : KClient) (st : Cluster) (label : Selector)
    (newImage tls : String) : Cluster × Except String Unit :=
  match FindDeploymentByLabel cl st label with
  | [] => (st, .error (("no deployment found with label ") ++ selToString label))
  | d :: _ =>
    match d.containers with
    | [] => (st, .error (("no containers found in deployment ") ++ d.name))
    | c :: cs =>
      let c2 := {c with image := newImage, env := updMainEnvVars c.env tls}
      (putDeployment st cl.ns {d with containers := c2 :: cs}, .ok ())

/-- Model of `updateEnvVars` (client.go:532-551): the lookup is for
`NO_TLS_VERIFY`, but when absent the appended variable is
`CORE_TLS_VERIFY` (the asymmetry is in the source). -/
def updateEnvVars (envs : List EnvVar) (tls : String) : List EnvVar :=
  let found := envs.any (fun e => e.name == syncTLSVerifyEnvVar)
  let envs2 := envs.map (fun e =>
    if e.name == syncTLSVerifyEnvVar then {e with value := tls} else e)
  if found then envs2 else envs2 ++ [{ name := coreTLSVerifyEnvVar, value := tls }]

/-- The loop body of `UpdateSyncDeploymentByLabel` (client.go:499-508) for
one container: a name containing `to-cloud` gets the to-cloud repository
with the new tag, a name containing `from-cloud` gets the from-cloud
repository; both checks run in sequence, each reading the environment of
the original container (the Go range variable). -/
def syncContainerUpd (toImg fromImg tag tls : String) (c : Container) : Container :=
  let a := if containsSub c.name ("to-cloud") then
      { c with image := toImg ++ ":" ++ tag, env := updateEnvVars c.env tls }
    else c
  if containsSub c.name ("from-cloud") then
    { a with image := fromImg ++ ":" ++ tag, env := updateEnvVars c.env tls }
  else a

/-- Model of `UpdateSyncDeploymentByLabel` (client.go:486-523).  `tag` is
the Go `newImage` argument (it is joined to each repository prefix);
`toImg`/`fromImg` stand for `utils.DefaultCoreOperatorToCloudDockerImage`
and `utils.DefaultCoreOperatorFromCloudDockerImage`, constants defined
outside the provided sources and therefore passed as parameters.  `now` is
the rollout timestamp and `wrFuel` the number of poll ticks granted to the
final `WaitReady` (which polls the post-update state). -/
def UpdateSyncDeploymentByLabel (cl : KClient) (st : Cluster) (label : Selector)
    (tag tls toImg fromImg now : String) (wrFuel : Nat) :
    Cluster × Except String Unit :=
  match FindDeploymentByLabel cl st label with
  | [] => (st, .error (("no deployment found with label ") ++ selToString label))
  | d :: _ =>
    match d.containers with
    | [] => (st, .error (("no containers found in deployment ") ++ d.name))
    | _ :: _ =>
      let d2 := {d with containers :=
        d.containers.map (syncContainerUpd toImg fromImg tag tls)}
      let st2 := putDeployment st cl.ns d2
      let st3 := patchRestartedAt st2 d.ns d.name now
      (st3, WaitReady (List.replicate wrFuel st3) d.ns d.name)

/-- Model of `UpdateOperatorDeploymentByLabel` (client.go:553-580). -/
def UpdateOperatorDeploymentByLabel (cl : KClient) (st : Cluster)
    (label : Selector) (newImage now : String) (wrFuel : Nat) :
    Cluster × Except String Unit :=
  match FindDeploymentByLabel cl st label with
  | [] => (st, .error (("no deployment found with label ") ++ selToString label))
  | d :: _ =>
    match d.containers with
    | [] => (st, .error (("no containers found in deployment ") ++ d.name))
    | c :: cs =>
      let d2 := {d with containers := ({c with image := newImage}) :: cs}
      let st2 := putDeployment st cl.ns d2
      let st3 := patchRestartedAt st2 d.ns d.name now
      (st3, WaitReady (List.replicate wrFuel st3) d.ns d.name)

/-- C7: when zero deployments match the selector, all three
single-deployment update operations return a hard error and leave the
cluster unchanged; when at least one matches (and the match has
containers), the first element of the listing is the deployment that gets
updated, and every deployment with a different key survives unchanged. -/
theorem update_by_label_spec (cl : KClient) (st : Cluster) (label : Selector)
    (newImage tls toImg fromImg now : String) (wrFuel : Nat) :
    (FindDeploymentByLabel cl st label = [] →
      UpdateDeploymentByLabel cl st label newImage tls
          = (st, .error (("no deployment found with label ") ++ selToString label))
      ∧ UpdateSyncDeploymentByLabel cl st label newImage tls toImg fromImg now wrFuel
          = (st, .error (("no deployment found with label ") ++ selToString label))
      ∧ UpdateOperatorDeploymentByLabel cl st label newImage now wrFuel
          = (st, .error (("no deployment found with label ") ++ selToString label)))
    ∧ (∀ d ds c cs, FindDeploymentByLabel cl st label = d :: ds →
        d.containers = c :: cs →
        UpdateDeploymentByLabel cl st label newImage tls
            = (putDeployment st cl.ns
                {d with containers :=
                  ({c with image := newImage, env := updMainEnvVars c.env tls}) :: cs},
               .ok ())
        ∧ (UpdateOperatorDeploymentByLabel cl st label newImage now wrFuel).1
            = patchRestartedAt
                (putDeployment st cl.ns
                  {d with containers := ({c with image := newImage}) :: cs})
                d.ns d.name now
        ∧ (∀ e ∈ st.deployments, ¬(e.ns = cl.ns ∧ e.name = d.name) →
            e ∈ (UpdateDeploymentByLabel cl st label newImage tls).1.deployments)) := by
  constructor
  · intro h
    refine ⟨?_, ?_, ?_⟩
    · simp only [UpdateDeploymentByLabel, h]
    · simp only [UpdateSyncDeploymentByLabel, h]
    · simp only [UpdateOperatorDeploymentByLabel, h]
  · intro d ds c cs hfind hcont
    refine ⟨?_, ?_, ?_⟩
    · simp only [UpdateDeploymentByLabel, hfind, hcont]
    · simp only [UpdateOperatorDeploymentByLabel, hfind, hcont]
    · intro e he hne
      simp only [UpdateDeploymentByLabel, hfind, hcont, putDeployment]
      refine List.mem_map.mpr ⟨e, he, ?_⟩
      have hcond : ¬((e.ns == cl.ns && e.name == d.name) = true) := by
        simp only [Bool.and_eq_true, beq_iff_eq]
        exact hne
      simp only [hcond]
      rw [if_neg ?_]
      · intro hc
        exact hcond (by simpa using hc)

/-- C7 witness inputs: one matching deployment with a single container. -/
def c7Client : KClient := { ns := ("default") }

def c7Dep : Deployment :=
  { name := ("web"), ns := ("default"), labels := [(("app"), ("x"))],
    selector := [(("app"), ("x"))],
    containers := [{ name := ("main"), image := ("img1") }] }

def c7Cluster : Cluster := { namespaces := [("default")], deployments := [c7Dep] }

/-- C7 witness: zero matches yield the hard error and untouched state; one
match updates the head of the listing. -/
theorem update_by_label_witness :
    (UpdateDeploymentByLabel c7Client { namespaces := [("default")] }
        [(("app"), ("x"))] ("img2") ("true")
      = ({ namespaces := [("default")] },
         .error (("no deployment found with label ") ++ selToString [(("app"), ("x"))])))
    ∧ UpdateDeploymentByLabel c7Client c7Cluster [(("app"), ("x"))] ("img2") ("true")
      = (putDeployment c7Cluster c7Client.ns
          {c7Dep with containers :=
            [{ name := ("main"), image := ("img2"),
               env := updMainEnvVars [] ("true") }]},
         .ok ()) :=
  ⟨(update_by_label_spec c7Client { namespaces := [("default")] } [(("app"), ("x"))]
      ("img2") ("true") ("t") ("f") ("ts") 0).1 (by rfl) |>.1,
   (update_by_label_spec c7Client c7Cluster [(("app"), ("x"))]
      ("img2") ("true") ("t") ("f") ("ts") 0).2 c7Dep []
      { name := ("main"), image := ("img1") } [] (by rfl) (by rfl) |>.1⟩

theorem map_ite_id {α : Type} (p : α → Bool) (f : α → α) :
    ∀ l : List α, (∀ e ∈ l, p e = false) →
      l.map (fun e => if p e then f e else e) = l := by
  intro l
  induction l with
  | nil => intro _; rfl
  | cons a l ih =>
    intro h
    have ha : p a = false := h a (by simp)
    simp only [List.map_cons, ha, Bool.false_eq_true, if_false]
    rw [ih (fun e he => h e (by simp [he]))]

/-- C8: the sync update rewrites the matched deployment's containers
pointwise — a `to-cloud` container gets the to-cloud repository joined
with the new tag and the TLS upsert, a `from-cloud` container the
from-cloud repository and the TLS upsert, any other container is left
untouched — then triggers the rollout annotation; deployments with a
different key are unchanged, and the TLS upsert sets every existing
`NO_TLS_VERIFY` variable or appends a TLS-verification variable when none
exists. -/
theorem sync_update_spec (cl : KClient) (st : Cluster) (label : Selector)
    (tag tls toImg fromImg now : String) (wrFuel : Nat) :
    (∀ d ds, FindDeploymentByLabel cl st label = d :: ds → d.containers ≠ [] →
      (UpdateSyncDeploymentByLabel cl st label tag tls toImg fromImg now wrFuel).1
          = patchRestartedAt
              (putDeployment st cl.ns
                {d with containers :=
                  d.containers.map (syncContainerUpd toImg fromImg tag tls)})
              d.ns d.name now
      ∧ (∀ e ∈ st.deployments, ¬(e.ns = cl.ns ∧ e.name = d.name) →
          e ∈ (UpdateSyncDeploymentByLabel cl st label tag tls toImg fromImg now
                wrFuel).1.deployments))
    ∧ (∀ c : Container, containsSub c.name ("to-cloud") = false →
        containsSub c.name ("from-cloud") = false →
        syncContainerUpd toImg fromImg tag tls c = c)
    ∧ (∀ c : Container, containsSub c.name ("to-cloud") = true →
        containsSub c.name ("from-cloud") = false →
        syncContainerUpd toImg fromImg tag tls c
          = { c with image := toImg ++ ":" ++ tag, env := updateEnvVars c.env tls })
    ∧ (∀ c : Container, containsSub c.name ("to-cloud") = false →
        containsSub c.name ("from-cloud") = true →
        syncContainerUpd toImg fromImg tag tls c
          = { c with image := fromImg ++ ":" ++ tag, env := updateEnvVars c.env tls })
    ∧ (∀ (envs : List EnvVar) (t2 : String),
        (envs.any (fun e => e.name == syncTLSVerifyEnvVar)) = false →
        updateEnvVars envs t2 = envs ++ [{ name := coreTLSVerifyEnvVar, value := t2 }])
    ∧ (∀ (envs : List EnvVar) (t2 : String),
        (envs.any (fun e => e.name == syncTLSVerifyEnvVar)) = true →
        updateEnvVars envs t2
          = envs.map (fun e =>
              if e.name == syncTLSVerifyEnvVar then {e with value := t2} else e)) := by
  refine ⟨?_, ?_, ?_, ?_, ?_, ?_⟩
  · intro d ds hfind hcont
    have hdns : d.ns = cl.ns := by
      have hd : d ∈ FindDeploymentByLabel cl st label := by
        rw [hfind]
        exact List.mem_cons_self d ds
      unfold FindDeploymentByLabel at hd
      have h2 := (List.mem_filter.mp hd).2
      simp only [Bool.and_eq_true, beq_iff_eq] at h2
      exact h2.1
    cases hc : d.containers with
    | nil => exact absurd hc hcont
    | cons c cs =>
      constructor
      · simp only [UpdateSyncDeploymentByLabel, hfind, hc]
      · intro e he hne
        simp only [UpdateSyncDeploymentByLabel, hfind, hc, putDeployment,
          patchRestartedAt]
        have hput : ¬((e.ns == cl.ns && e.name == d.name) = true) := by
          simp only [Bool.and_eq_true, beq_iff_eq]
          exact hne
        have hpatch : ¬((e.ns == d.ns && e.name == d.name) = true) := by
          simp only [Bool.and_eq_true, beq_iff_eq, hdns]
          exact hne
        refine List.mem_map.mpr ⟨e, List.mem_map.mpr ⟨e, he, ?_⟩, ?_⟩
        · rw [if_neg ?_]
          intro hx
          exact hput (by simpa using hx)
        · rw [if_neg hpatch]
  · intro c h1 h2
    simp only [syncContainerUpd, h1, h2, Bool.false_eq_true, if_false]
  · intro c h1 h2
    simp only [syncContainerUpd, h1, h2, Bool.false_eq_true, if_false, if_true]
  · intro c h1 h2
    simp only [syncContainerUpd, h1, h2, Bool.false_eq_true, if_false, if_true]
  · intro envs t2 h
    simp only [updateEnvVars, h, Bool.false_eq_true, if_false]
    rw [map_ite_id _ _ envs (fun e he => by
      have := List.any_eq_false.mp h e he
      simpa using this)]
  · intro envs t2 h
    simp only [updateEnvVars, h, if_true]

/-- C8 witness inputs: a sync deployment with to-cloud, from-cloud and
unrelated containers. -/
def c8Client : KClient := { ns := ("default") }

def c8Dep : Deployment :=
  { name := ("calyptia-i-e-sync"), ns := ("default"),
    labels := [(("app"), ("s"))], selector := [(("app"), ("s"))],
    containers := [{ name := ("foo-to-cloud"), image := ("old1") },
                   { name := ("foo-from-cloud"), image := ("old2") },
                   { name := ("other"), image := ("old3") }] }

def c8Cluster : Cluster := { namespaces := [("default")], deployments := [c8Dep] }

/-- C8 witness: the concrete sync deployment is rewritten container-wise,
and an unrelated container is a fixed point of the rewrite. -/
theorem sync_update_witness :
    (UpdateSyncDeploymentByLabel c8Client c8Cluster [(("app"), ("s"))]
        ("v9") ("true") ("toRepo") ("fromRepo") ("ts") 0).1
      = patchRestartedAt
          (putDeployment c8Cluster c8Client.ns
            {c8Dep with containers :=
              c8Dep.containers.map (syncContainerUpd ("toRepo") ("fromRepo") ("v9") ("true"))})
          c8Dep.ns c8Dep.name ("ts")
    ∧ syncContainerUpd ("toRepo") ("fromRepo") ("v9") ("true")
        { name := ("other"), image := ("old3") }
      = { name := ("other"), image := ("old3") } :=
  ⟨((sync_update_spec c8Client c8Cluster [(("app"), ("s"))]
      ("v9") ("true") ("toRepo") ("fromRepo") ("ts") 0).1 c8Dep [] (by rfl)
      (by decide)).1,
   (sync_update_spec c8Client c8Cluster [(("app"), ("s"))]
      ("v9") ("true") ("toRepo") ("fromRepo") ("ts") 0).2.1
      { name := ("other"), image := ("old3") } (by decide) (by decide)⟩

/-! ### Claim C9 — dry-run creation (client.go:122-366) -/

/-- The relevant fields of `cloud.CreatedCoreInstance`. -/
structure CoreInstance where
  name : String
  environmentName : String
  privateRSAKey : String := ""
deriving DecidableEq

structure ObjectMeta where
  name : String
  labels : List (String × String) := []
deriving DecidableEq

/-- Model of `getObjectMeta` (client.go:71-80): derive the deterministic
object name from instance, environment and kind, prefixing `calyptia-`
when missing, and attach the client labels. -/
def getObjectMeta (cl : KClient) (agg : CoreInstance) (objType : String) :
    ObjectMeta :=
  let n := agg.name ++ "-" ++ agg.environmentName ++ "-" ++ objType
  if isPreL defaultResourceNamePre.data n.data then
    { name := n, labels := cl.labels }
  else
    { name := defaultResourceNamePre ++ "-" ++ n, labels := cl.labels }

structure SecretObj where
  meta : ObjectMeta
  data : List (String × String)
deriving DecidableEq

structure ServiceAccountObj where
  meta : ObjectMeta
deriving DecidableEq

structure ClusterRoleObj where
  meta : ObjectMeta
  apiGroups : List String
  resources : List String
  verbs : List String
deriving DecidableEq

structure ClusterRoleBindingObj where
  meta : ObjectMeta
  roleRefName : String
  subjectNamespace : String
  subjectName : String
deriving DecidableEq

structure ClusterRoleOpt where
  enableOpenShift : Bool
deriving DecidableEq

/-- The request object built by `CreateSecret` (client.go:122-133). -/
def mkSecretReq (cl : KClient) (agg : CoreInstance) : SecretObj :=
  let m := getObjectMeta cl agg ("secret")
  { meta := m, data := [(m.name, agg.privateRSAKey)] }

/-- The request object built by `CreateServiceAccount` (client.go:230-238). -/
def mkServiceAccountReq (cl : KClient) (agg : CoreInstance) : ServiceAccountObj :=
  { meta := getObjectMeta cl agg ("service-account") }

def baseApiGroups : List String := ["", "apps", "batch", "policy", "core.calyptia.com"]

def baseResources : List String :=
  ["namespaces", "deployments", "daemonsets", "replicasets", "pods", "services",
   "configmaps", "deployments/scale", "secrets", "nodes/proxy", "nodes", "jobs",
   "podsecuritypolicies", "ingestchecks", "ingestchecks/finalizers",
   "ingestchecks/status", "pipelines", "pipelines/finalizers", "pipelines/status"]

def clusterRoleVerbs : List String :=
  ["get", "list", "create", "delete", "patch", "update", "watch",
   "deletecollection", "use"]

/-- The request object built by `CreateClusterRole` (client.go:166-221):
the first option, when present and OpenShift is enabled, extends the rule
with the security API group and resource. -/
def mkClusterRoleReq (cl : KClient) (agg : CoreInstance)
    (opts : List ClusterRoleOpt) : ClusterRoleObj :=
  let extend := match opts with
    | o :: _ => o.enableOpenShift
    | [] => false
  { meta := getObjectMeta cl agg ("cluster-role")
    apiGroups := if extend then baseApiGroups ++ [("security.openshift.io")] else baseApiGroups
    resources := if extend then baseResources ++ [("securitycontextconstraints")] else baseResources
    verbs := clusterRoleVerbs }

/-- The request object built by `CreateClusterRoleBinding`
(client.go:247-273): references the already-created role by name and the
service account in the client namespace. -/
def mkClusterRoleBindingReq (cl : KClient) (agg : CoreInstance)
    (clusterRole : ClusterRoleObj) (serviceAccount : ServiceAccountObj) :
    ClusterRoleBindingObj :=
  { meta := getObjectMeta cl agg ("cluster-role-binding")
    roleRefName := clusterRole.meta.name
    subjectNamespace := cl.ns
    subjectName := serviceAccount.meta.name }

/-- The request object built by `CreateDeployment` (client.go:282-358):
one container whose environment embeds the instance identity, tokens,
URLs, TLS flags and downward references. -/
def mkDeploymentReq (cl : KClient) (img : String) (agg : CoreInstance)
    (coreCloudURL : String) (serviceAccount : ServiceAccountObj)
    (tlsVerify skipServiceCreation : Bool) : Deployment :=
  { name := (getObjectMeta cl agg ("deployment")).name
    ns := cl.ns
    labels := cl.labels
    selector := cl.labels
    serviceAccountName := serviceAccount.meta.name
    replicas := 1
    containers := [{ name := agg.name, image := img, env :=
      [{ name := ("AGGREGATOR_NAME"), value := agg.name },
       { name := ("PROJECT_TOKEN"), value := cl.projectToken },
       { name := ("AGGREGATOR_FLUENTBIT_CLOUD_URL"), value := coreCloudURL },
       { name := coreTLSVerifyEnvVar,
         value := if tlsVerify then ("true") else ("false") },
       { name := coreSkipServiceCreationEnvVar,
         value := if skipServiceCreation then ("true") else ("false") },
       { name := ("POD_NAMESPACE"), value := cl.ns },
       { name := ("DEPLOYMENT_NAME"), value := (""),
         fieldRef := some ("metadata.name") }] }] }

/-- Model of `CreateSecret`: build the request first; with `dryRun` return
it untouched, otherwise persist it into the client namespace. -/
def CreateSecret (cl : KClient) (st : Cluster) (agg : CoreInstance)
    (dryRun : Bool) : Cluster × Except String SecretObj :=
  let req := mkSecretReq cl agg
  if dryRun then (st, .ok req)
  else ({st with secrets := st.secrets
          ++ [{ name := req.meta.name, ns := cl.ns, labels := req.meta.labels }]},
        .ok req)

def CreateServiceAccount (cl : KClient) (st : Cluster) (agg : CoreInstance)
    (dryRun : Bool) : Cluster × Except String ServiceAccountObj :=
  let req := mkServiceAccountReq cl agg
  if dryRun then (st, .ok req)
  else ({st with serviceAccounts := st.serviceAccounts
          ++ [{ name := req.meta.name, ns := cl.ns, labels := req.meta.labels }]},
        .ok req)

def CreateClusterRole (cl : KClient) (st : Cluster) (agg : CoreInstance)
    (dryRun : Bool) (opts : List ClusterRoleOpt) :
    Cluster × Except String ClusterRoleObj :=
  let req := mkClusterRoleReq cl agg opts
  if dryRun then (st, .ok req)
  else ({st with clusterRoles := st.clusterRoles
          ++ [{ name := req.meta.name, labels := req.meta.labels }]},
        .ok req)

def CreateClusterRoleBinding (cl : KClient) (st : Cluster) (agg : CoreInstance)
    (clusterRole : ClusterRoleObj) (serviceAccount : ServiceAccountObj)
    (dryRun : Bool) : Cluster × Except String ClusterRoleBindingObj :=
  let req := mkClusterRoleBindingReq cl agg clusterRole serviceAccount
  if dryRun then (st, .ok req)
  else ({st with clusterRoleBindings := st.clusterRoleBindings
          ++ [{ name := req.meta.name, labels := req.meta.labels }]},
        .ok req)

def CreateDeployment (cl : KClient) (st : Cluster) (img : String)
    (agg : CoreInstance) (coreCloudURL : String)
    (serviceAccount : ServiceAccountObj) (tlsVerify skipServiceCreation : Bool)
    (dryRun : Bool) : Cluster × Except String Deployment :=
  let req := mkDeploymentReq cl img agg coreCloudURL serviceAccount tlsVerify
    skipServiceCreation
  if dryRun then (st, .ok req)
  else ({st with deployments := st.deployments ++ [req]}, .ok req)

/-- C9: with `dryRun = true` every creation operation returns the fully
populated request object with no error and performs no cluster mutation:
the returned object is exactly the one the non-dry path would submit, and
the state component is the input state. -/
theorem dry_run_returns_object_no_mutation (cl : KClient) (st : Cluster)
    (agg : CoreInstance) (img coreCloudURL : String)
    (serviceAccount : ServiceAccountObj) (clusterRole : ClusterRoleObj)
    (tlsVerify skipServiceCreation : Bool) (opts : List ClusterRoleOpt) :
    CreateSecret cl st agg true = (st, .ok (mkSecretReq cl agg))
    ∧ CreateServiceAccount cl st agg true = (st, .ok (mkServiceAccountReq cl agg))
    ∧ CreateClusterRole cl st agg true opts = (st, .ok (mkClusterRoleReq cl agg opts))
    ∧ CreateClusterRoleBinding cl st agg clusterRole serviceAccount true
        = (st, .ok (mkClusterRoleBindingReq cl agg clusterRole serviceAccount))
    ∧ CreateDeployment cl st img agg coreCloudURL serviceAccount tlsVerify
        skipServiceCreation true
        = (st, .ok (mkDeploymentReq cl img agg coreCloudURL serviceAccount
            tlsVerify skipServiceCreation)) :=
  ⟨rfl, rfl, rfl, rfl, rfl⟩

/-! ### Claim C10 — readiness is not vacuous on zero pods -/

theorem runLoop_true_acc :
    ∀ pods : List Pod, runLoop pods true = true
      ↔ ∀ p ∈ pods, p.phase = PodPhase.running := by
  intro pods
  induction pods with
  | nil => simp [runLoop]
  | cons p rest ih =>
    simp only [runLoop]
    by_cases hp : p.phase = PodPhase.running
    · rw [if_pos (by simp [hp])]
      constructor
      · intro h q hq
        rcases List.mem_cons.mp hq with h1 | h2
        · rw [h1]; exact hp
        · exact (ih.mp h) q h2
      · intro h
        exact ih.mpr (fun q hq => h q (List.mem_cons_of_mem p hq))
    · rw [if_neg (by simp [hp])]
      constructor
      · intro h
        exact Bool.noConfusion h
      · intro h
        exact absurd (h p (List.mem_cons_self p rest)) hp

theorem runLoop_false_iff (pods : List Pod) :
    runLoop pods false = true
      ↔ (pods ≠ [] ∧ ∀ p ∈ pods, p.phase = PodPhase.running) := by
  cases pods with
  | nil => simp [runLoop]
  | cons p rest =>
    have hacc : runLoop (p :: rest) false = runLoop (p :: rest) true := rfl
    rw [hacc, runLoop_true_acc]
    simp

/-- C10: the per-poll readiness over an empty pod set is `false` (the
running flag keeps its zero value), so `WaitReady` on a deployment whose
selector matches no pods in any snapshot never returns nil; conversely a
nil return exhibits a snapshot where the deployment was found, at least
one pod matched and every matched pod was running; and the readiness loop
is `true` exactly on a non-empty all-running pod list. -/
theorem waitReady_not_vacuous (snaps : List Cluster) (ns dname : String) :
    ((∀ st ∈ snaps, ∀ d, findDeployment st ns dname = some d →
        podsForSelector st ns d.selector = []) →
      WaitReady snaps ns dname ≠ .ok ())
    ∧ (WaitReady snaps ns dname = .ok () →
        ∃ st ∈ snaps, ∃ d, findDeployment st ns dname = some d
          ∧ podsForSelector st ns d.selector ≠ []
          ∧ ∀ p ∈ podsForSelector st ns d.selector, p.phase = PodPhase.running)
    ∧ (∀ pods : List Pod, runLoop pods false = true ↔
        (pods ≠ [] ∧ ∀ p ∈ pods, p.phase = PodPhase.running)) := by
  refine ⟨?_, ?_, runLoop_false_iff⟩
  · induction snaps with
    | nil =>
      intro _ hok
      exact Except.noConfusion hok
    | cons st rest ih =>
      intro h hok
      simp only [WaitReady] at hok
      cases hr : isDeploymentReady st ns dname with
      | error e =>
        rw [hr] at hok
        exact Except.noConfusion hok
      | ok b =>
        cases b with
        | true =>
          unfold isDeploymentReady at hr
          cases hf : findDeployment st ns dname with
          | none =>
            rw [hf] at hr
            exact Except.noConfusion hr
          | some d =>
            rw [hf] at hr
            simp only [Except.ok.injEq] at hr
            have hch := (runLoop_false_iff _).mp hr
            exact hch.1 (h st (by simp) d hf)
        | false =>
          rw [hr] at hok
          exact ih (fun st2 h2 => h st2 (by simp [h2])) hok
  · induction snaps with
    | nil =>
      intro hok
      exact Except.noConfusion hok
    | cons st rest ih =>
      intro hok
      simp only [WaitReady] at hok
      cases hr : isDeploymentReady st ns dname with
      | error e =>
        rw [hr] at hok
        exact Except.noConfusion hok
      | ok b =>
        cases b with
        | true =>
          unfold isDeploymentReady at hr
          cases hf : findDeployment st ns dname with
          | none =>
            rw [hf] at hr
            exact Except.noConfusion hr
          | some d =>
            rw [hf] at hr
            simp only [Except.ok.injEq] at hr
            have hch := (runLoop_false_iff _).mp hr
            exact ⟨st, by simp, d, hf, hch.1, hch.2⟩
        | false =>
          rw [hr] at hok
          rcases ih hok with ⟨st2, hm, rest2⟩
          exact ⟨st2, by simp [hm], rest2⟩

/-- C10 witness inputs: a deployment whose selector matches no pods. -/
def c10Dep : Deployment :=
  { name := ("web"), ns := ("default"), selector := [(("app"), ("x"))] }

def c10Cluster : Cluster := { namespaces := [("default")], deployments := [c10Dep] }

/-- C10 witness: with no matching pods in any snapshot, the wait never
returns nil. -/
theorem waitReady_witness :
    WaitReady [c10Cluster] ("default") ("web") ≠ .ok () :=
  (waitReady_not_vacuous [c10Cluster] ("default") ("web")).1 (by
    intro st hst d hd
    have h1 : st = c10Cluster := by simpa using hst
    subst h1
    have he : findDeployment c10Cluster ("default") ("web") = some c10Dep := rfl
    rw [he] at hd
    cases hd
    rfl)

end CalyptiaCLI
